import Mathlib

/-
Shallow embedding of the algorand-first-contracts repository.

Source files embedded:
  src/counter_contract.py   (PyTeal approval program, wait_for_confirmation, format_state)
  src/donation_smart_sig.py (donation_escrow smart signature)
  src/tests/helpers.py      (_wait_for_confirmation, get_app_global_state)

Modelling conventions:
  - TEAL uint64 values are carried as Int with the explicit bound 2^64;
    the AVM addition opcode errors (panics) when the result reaches 2^64,
    which is modelled by returning none.
  - A TEAL Cond with no matching branch, and access to a missing
    transaction argument, error the program: modelled as none.
  - An approval program that errors or returns 0 rejects the transaction,
    and a rejected transaction leaves the global state unchanged.
  - External library calls (base64 decoding) are abstract parameters of
    the embedding: the repository code only routes their results.
-/

namespace CounterContract

/-- First value outside the TEAL uint64 range. -/
def UINT64_LIMIT : Int := 2 ^ 64

/-- On-completion actions of an application call, as referenced by the
Cond branches in approval_program (src/counter_contract.py lines 45-52). -/
inductive OnComplete where
  | noOp
  | optIn
  | closeOut
  | clearState
  | updateApplication
  | deleteApplication
deriving DecidableEq

/-- The transaction fields read by the counter approval program:
application id, on-completion action, group size, application args. -/
structure AppCallTxn where
  applicationId : Int
  onCompletion : OnComplete
  groupSize : Nat
  appArgs : List String
deriving DecidableEq

/-- The global state of the counter application: the single uint64 slot
stored under the key Count. -/
structure CounterState where
  count : Int
deriving DecidableEq

/-- The add branch (src/counter_contract.py lines 20-24): reads Count,
writes Count + 1, returns 1. The AVM addition errors at 2^64. -/
def addBranch (st : CounterState) : Option (Bool × CounterState) :=
  if st.count + 1 < UINT64_LIMIT then
    some (true, ⟨st.count + 1⟩)
  else
    none

/-- The deduct branch (src/counter_contract.py lines 26-32): reads Count,
writes Count - 1 only when Count > 0, returns 1 on both paths. -/
def deductBranch (st : CounterState) : Option (Bool × CounterState) :=
  if st.count > 0 then
    some (true, ⟨st.count - 1⟩)
  else
    some (true, st)

/-- handle_noop (src/counter_contract.py lines 34-43): a Cond dispatching
on group size 1 together with the first application argument; both Cond
guards read Txn.application_args at index 0, which errors when absent,
and a Cond with no true guard errors. -/
def handle_noop (txn : AppCallTxn) (st : CounterState) : Option (Bool × CounterState) :=
  match txn.appArgs.head? with
  | none => none
  | some arg0 =>
    if txn.groupSize = 1 ∧ arg0 = "Add" then addBranch st
    else if txn.groupSize = 1 ∧ arg0 = "Deduct" then deductBranch st
    else none

/-- approval_program (src/counter_contract.py lines 45-52): on creation
(application id 0) writes Count := 0 and approves; opt-in, close-out,
update and delete return 0 (reject); a NoOp call goes to handle_noop; a
clear-state on-completion matches no Cond branch and errors. -/
def approval_program (txn : AppCallTxn) (st : CounterState) : Option (Bool × CounterState) :=
  if txn.applicationId = 0 then some (true, ⟨0⟩)
  else if txn.onCompletion = OnComplete.optIn then some (false, st)
  else if txn.onCompletion = OnComplete.closeOut then some (false, st)
  else if txn.onCompletion = OnComplete.updateApplication then some (false, st)
  else if txn.onCompletion = OnComplete.deleteApplication then some (false, st)
  else if txn.onCompletion = OnComplete.noOp then handle_noop txn st
  else none

/-- A transaction is accepted when the approval program runs without
error and returns a nonzero value. -/
def accepts (txn : AppCallTxn) (st : CounterState) : Bool :=
  match approval_program txn st with
  | some (true, _) => true
  | _ => false

/-- Ledger effect of submitting one transaction: an accepted transaction
commits the state written by the approval program; a rejected or erroring
transaction leaves the global state unchanged. -/
def applyTxn (st : CounterState) (txn : AppCallTxn) : CounterState :=
  match approval_program txn st with
  | some (true, st2) => st2
  | _ => st

/-- The two counter operations exercised by the workflow and the tests. -/
inductive Op where
  | add
  | deduct
deriving DecidableEq

/-- The application argument submitted for each operation
(src/counter_contract.py line 145, src/tests/test_counter_contract.py
lines 50-54). -/
def Op.toArg : Op → String
  | Op.add => "Add"
  | Op.deduct => "Deduct"

/-- The solo NoOp application call submitted for one operation: group of
size 1, single argument. -/
def opTxn (appId : Int) (op : Op) : AppCallTxn :=
  ⟨appId, OnComplete.noOp, 1, [op.toArg]⟩

/-- State of a freshly created counter: the creation call stores 0 under
Count (src/counter_contract.py lines 13-16). -/
def initialState : CounterState := ⟨0⟩

/-- Run a sequence of solo Add/Deduct calls against application appId,
starting from a freshly created counter. -/
def runOps (appId : Int) (ops : List Op) : CounterState :=
  ops.foldl (fun st op => applyTxn st (opTxn appId op)) initialState

/-- Modelled from the spec: the value max(0, number of Adds minus number
of Deducts) that section 8 of the spec claims the stored counter equals
after a sequence of operations. -/
def specClaimValue (ops : List Op) : Int :=
  max 0 ((ops.count Op.add : Int) - (ops.count Op.deduct : Int))

/-- Number of Adds minus number of Deducts in a sequence, as an integer. -/
def net : List Op → Int
  | [] => 0
  | Op.add :: rest => 1 + net rest
  | Op.deduct :: rest => net rest - 1

/-- Maximum of net over all suffixes of the sequence (the empty suffix
contributes 0). -/
def suffMax : List Op → Int
  | [] => 0
  | op :: rest => max (net (op :: rest)) (suffMax rest)

/-- The mathematical counter evolution: Add maps v to v + 1, Deduct maps
v to v - 1 clamped at 0 (truncated Nat subtraction). -/
def runPureFrom (v : Nat) : List Op → Nat
  | [] => v
  | Op.add :: rest => runPureFrom (v + 1) rest
  | Op.deduct :: rest => runPureFrom (v - 1) rest

/-- One poll of the node for a pending transaction: either
pending_transaction_info raised an exception, or it returned a record
carrying the confirmed-round field (absent encoded as 0) and the
pool-error string (empty string is falsy in Python). -/
inductive PollResult where
  | excn
  | pending (confirmedRound : Nat) (poolErrorMsg : String)
deriving DecidableEq

/-- How one run of wait_for_confirmation ends
(src/counter_contract.py lines 64-79, src/tests/helpers.py lines 76-103):
swallowed models the bare return inside the except handler (the caller
sees None, no exception); confirmedTxn models returning the pending
record; poolFailure and timeoutFailure model the two raise statements. -/
inductive WaitOutcome where
  | swallowed
  | confirmedTxn (confirmedRound : Nat) (poolErrorMsg : String)
  | poolFailure (msg : String)
  | timeoutFailure
deriving DecidableEq

/-- The while loop of wait_for_confirmation: polls is the stream of node
responses indexed by loop iteration, the second argument is the number of
rounds left in the budget. Returns the outcome together with the number
of polls performed. -/
def waitLoop (polls : Nat → PollResult) : Nat → Nat → WaitOutcome × Nat
  | _, 0 => (WaitOutcome.timeoutFailure, 0)
  | i, rounds + 1 =>
    match polls i with
    | PollResult.excn => (WaitOutcome.swallowed, 1)
    | PollResult.pending cr pe =>
      if cr > 0 then (WaitOutcome.confirmedTxn cr pe, 1)
      else if pe ≠ "" then (WaitOutcome.poolFailure pe, 1)
      else
        let r := waitLoop polls (i + 1) rounds
        (r.1, r.2 + 1)

/-- wait_for_confirmation (src/counter_contract.py lines 64-79; the same
loop appears in src/donation_smart_sig.py lines 17-32 and
src/tests/helpers.py lines 76-103): current_round runs from start_round
while current_round < start_round + timeout, so the loop body executes at
most timeout times, polling once per iteration. -/
def wait_for_confirmation (polls : Nat → PollResult) (timeout : Nat) : WaitOutcome × Nat :=
  waitLoop polls 0 timeout

/-- One key/value entry of the global-state blob returned by the node:
the base64-encoded key, the value-kind discriminant, the base64-encoded
bytes field and the uint field of the value record. -/
structure StateEntry where
  key : String
  vtype : Nat
  bytes : String
  uint : Nat
deriving DecidableEq

/-- A decoded value in the formatted mapping: either a string (byte
values) or an unsigned integer. -/
inductive FormattedValue where
  | str (s : String)
  | int (n : Nat)
deriving DecidableEq

/-- format_state (src/counter_contract.py lines 81-95). dec is the
external library decoding base64.b64decode(x).decode(utf-8), applied to
every key and, only under the key voted, to a byte value. The Python dict
assignment is modelled by prepending, so a lookup sees the latest write.
Discriminant 1 selects the bytes field; every other discriminant falls
into the else branch and selects the uint field. -/
def format_state (dec : String → String) (state : List StateEntry) :
    List (String × FormattedValue) :=
  state.foldl (fun formatted item =>
    let formatted_key := dec item.key
    if item.vtype = 1 then
      if formatted_key = "voted" then
        (formatted_key, FormattedValue.str (dec item.bytes)) :: formatted
      else
        (formatted_key, FormattedValue.str item.bytes) :: formatted
    else
      (formatted_key, FormattedValue.int item.uint) :: formatted) []

end CounterContract

namespace Helpers

open CounterContract

/-- The loop of get_app_global_state (src/tests/helpers.py lines 222-237):
b64 is the external base64.b64decode library call, applied to keys and to
byte values. Discriminant 1 decodes the bytes field, discriminant 2 takes
the uint field, and any other discriminant raises the unexpected-state-type
exception. Python dict assignment is modelled by prepending. -/
def get_app_global_state_loop (b64 : String → String)
    (acc : List (String × FormattedValue)) :
    List StateEntry → Except String (List (String × FormattedValue))
  | [] => Except.ok acc
  | item :: rest =>
    if item.vtype = 1 then
      get_app_global_state_loop b64 ((b64 item.key, FormattedValue.str (b64 item.bytes)) :: acc) rest
    else if item.vtype = 2 then
      get_app_global_state_loop b64 ((b64 item.key, FormattedValue.int item.uint) :: acc) rest
    else
      Except.error ("Unexpected state type: " ++ toString item.vtype)

/-- get_app_global_state (src/tests/helpers.py lines 218-237), restricted
to the state-decoding loop over the global-state entries. -/
def get_app_global_state (b64 : String → String) (state : List StateEntry) :
    Except String (List (String × FormattedValue)) :=
  get_app_global_state_loop b64 [] state

end Helpers

namespace DonationSmartSig

/-- Transaction type enumeration as compared by Txn.type_enum. -/
inductive TxnType where
  | payment
  | keyRegistration
  | assetConfig
  | assetTransfer
  | assetFreeze
  | applicationCall
deriving DecidableEq

/-- The transaction fields read by the donation escrow predicate. -/
structure SigTxn where
  typeEnum : TxnType
  receiver : String
  groupSize : Nat
deriving DecidableEq

/-- donation_escrow (src/donation_smart_sig.py lines 34-40): the
conjunction of type is payment, receiver is the embedded benefactor
address, and group size is 1. -/
def donation_escrow (benefactor : String) (txn : SigTxn) : Bool :=
  decide (txn.typeEnum = TxnType.payment) &&
  decide (txn.receiver = benefactor) &&
  decide (txn.groupSize = 1)

end DonationSmartSig


namespace CounterContract

theorem applyTxn_add_eq (appId : Int) (st : CounterState) (h : appId ≠ 0)
    (hlt : st.count + 1 < UINT64_LIMIT) :
    applyTxn st (opTxn appId Op.add) = ⟨st.count + 1⟩ := by
  simp [applyTxn, approval_program, opTxn, handle_noop, Op.toArg, addBranch, h, hlt]

theorem applyTxn_deduct_pos (appId : Int) (st : CounterState) (h : appId ≠ 0)
    (hpos : st.count > 0) :
    applyTxn st (opTxn appId Op.deduct) = ⟨st.count - 1⟩ := by
  simp [applyTxn, approval_program, opTxn, handle_noop, Op.toArg, deductBranch, h, hpos]

theorem applyTxn_deduct_np (appId : Int) (st : CounterState) (h : appId ≠ 0)
    (hz : ¬ st.count > 0) :
    applyTxn st (opTxn appId Op.deduct) = st := by
  simp [applyTxn, approval_program, opTxn, handle_noop, Op.toArg, deductBranch, h, hz]

theorem suffMax_nonneg (ops : List Op) : 0 ≤ suffMax ops := by
  induction ops with
  | nil => simp [suffMax]
  | cons op rest ih => exact le_trans ih (le_max_right _ _)

theorem net_le_suffMax (ops : List Op) : net ops ≤ suffMax ops := by
  cases ops with
  | nil => simp [suffMax, net]
  | cons op rest => exact le_max_left _ _

theorem runPureFrom_eq_max (ops : List Op) :
    ∀ v : Nat, ((runPureFrom v ops : Nat) : Int) = max ((v : Int) + net ops) (suffMax ops) := by
  induction ops with
  | nil =>
    intro v
    simp only [runPureFrom, net, suffMax]
    rw [max_def]
    split_ifs <;> omega
  | cons op rest ih =>
    intro v
    have hns := net_le_suffMax rest
    cases op with
    | add =>
      have h1 := ih (v + 1)
      simp only [runPureFrom, net, suffMax] at h1 ⊢
      rw [h1, max_def, max_def, max_def]
      split_ifs <;> omega
    | deduct =>
      have h1 := ih (v - 1)
      simp only [runPureFrom, net, suffMax] at h1 ⊢
      rw [h1, max_def, max_def, max_def]
      split_ifs <;> omega

theorem foldl_applyTxn_eq_runPureFrom (appId : Int) (h : appId ≠ 0)
    (ops : List Op) :
    ∀ v : Nat, (v : Int) + ops.length < UINT64_LIMIT →
    List.foldl (fun st op => applyTxn st (opTxn appId op)) ⟨(v : Int)⟩ ops =
      ⟨((runPureFrom v ops : Nat) : Int)⟩ := by
  induction ops with
  | nil =>
    intro v _
    simp [runPureFrom]
  | cons op rest ih =>
    intro v hb
    cases op with
    | add =>
      have hlt : ((⟨(v : Int)⟩ : CounterState).count) + 1 < UINT64_LIMIT := by
        simp only [List.length_cons] at hb
        push_cast at hb ⊢
        omega
      rw [List.foldl_cons, applyTxn_add_eq appId _ h hlt]
      have hcast : (⟨(v : Int) + 1⟩ : CounterState) = ⟨((v + 1 : Nat) : Int)⟩ := by
        push_cast
        rfl
      rw [hcast, ih (v + 1) (by simp only [List.length_cons] at hb; push_cast at hb ⊢; omega)]
      rfl
    | deduct =>
      rcases Nat.eq_zero_or_pos v with hv | hv
      · subst hv
        have hnp : ¬ ((⟨((0 : Nat) : Int)⟩ : CounterState).count) > 0 := by simp
        rw [List.foldl_cons, applyTxn_deduct_np appId _ h hnp]
        rw [ih 0 (by simp only [List.length_cons] at hb; push_cast at hb ⊢; omega)]
        rfl
      · have hpos : ((⟨(v : Int)⟩ : CounterState).count) > 0 := by
          simp only []
          exact_mod_cast hv
        rw [List.foldl_cons, applyTxn_deduct_pos appId _ h hpos]
        have hcast : (⟨(v : Int) - 1⟩ : CounterState) = ⟨((v - 1 : Nat) : Int)⟩ := by
          have : ((v - 1 : Nat) : Int) = (v : Int) - 1 := by omega
          rw [this]
        rw [hcast, ih (v - 1) (by simp only [List.length_cons] at hb; push_cast at hb ⊢; omega)]
        rfl

theorem approval_program_nonneg (txn : AppCallTxn) (st : CounterState) (h : 0 ≤ st.count)
    (b : Bool) (st2 : CounterState) (happr : approval_program txn st = some (b, st2)) :
    0 ≤ st2.count := by
  unfold approval_program at happr
  split_ifs at happr with h1 h2 h3 h4 h5 h6
  · simp only [Option.some.injEq, Prod.mk.injEq] at happr
    rw [← happr.2]
  · simp only [Option.some.injEq, Prod.mk.injEq] at happr
    rw [← happr.2]; exact h
  · simp only [Option.some.injEq, Prod.mk.injEq] at happr
    rw [← happr.2]; exact h
  · simp only [Option.some.injEq, Prod.mk.injEq] at happr
    rw [← happr.2]; exact h
  · simp only [Option.some.injEq, Prod.mk.injEq] at happr
    rw [← happr.2]; exact h
  · unfold handle_noop at happr
    cases hhead : txn.appArgs.head? with
    | none =>
      rw [hhead] at happr
      simp at happr
    | some arg0 =>
      rw [hhead] at happr
      simp only [Option.some.injEq] at happr
      split_ifs at happr with ha hd
      · unfold addBranch at happr
        split_ifs at happr with hov
        simp only [Option.some.injEq, Prod.mk.injEq] at happr
        rw [← happr.2]
        simp only []
        omega
      · unfold deductBranch at happr
        split_ifs at happr with hpos
        · simp only [Option.some.injEq, Prod.mk.injEq] at happr
          rw [← happr.2]
          simp only []
          omega
        · simp only [Option.some.injEq, Prod.mk.injEq] at happr
          rw [← happr.2]; exact h

theorem applyTxn_count_nonneg (st : CounterState) (txn : AppCallTxn) (h : 0 ≤ st.count) :
    0 ≤ (applyTxn st txn).count := by
  unfold applyTxn
  cases happr : approval_program txn st with
  | none => exact h
  | some p =>
    rcases p with ⟨b, st2⟩
    cases b with
    | false => exact h
    | true => exact approval_program_nonneg txn st h true st2 happr

theorem runOps_nonneg (appId : Int) (ops : List Op) : 0 ≤ (runOps appId ops).count := by
  unfold runOps
  have hinit : (0 : Int) ≤ initialState.count := le_refl 0
  generalize initialState = st0 at hinit ⊢
  induction ops generalizing st0 with
  | nil => exact hinit
  | cons op rest ih =>
    rw [List.foldl_cons]
    exact ih _ (applyTxn_count_nonneg st0 (opTxn appId op) hinit)

end CounterContract

namespace CounterContract

theorem waitLoop_polls_le (polls : Nat → PollResult) :
    ∀ rounds i : Nat, (waitLoop polls i rounds).2 ≤ rounds := by
  intro rounds
  induction rounds with
  | zero => intro i; simp [waitLoop]
  | succ n ih =>
    intro i
    cases hp : polls i with
    | excn => simp [waitLoop, hp]
    | pending cr pe =>
      simp only [waitLoop, hp]
      split_ifs with h1 h2
      · simp
      · simp
      · simp only []
        have := ih (i + 1)
        omega

theorem waitLoop_timeout (polls : Nat → PollResult) :
    ∀ rounds i : Nat, (∀ j, j < rounds → polls (i + j) = PollResult.pending 0 "") →
    waitLoop polls i rounds = (WaitOutcome.timeoutFailure, rounds) := by
  intro rounds
  induction rounds with
  | zero => intro i _; rfl
  | succ n ih =>
    intro i hall
    have h0 : polls i = PollResult.pending 0 "" := by
      have := hall 0 (Nat.succ_pos n)
      rwa [Nat.add_zero] at this
    simp only [waitLoop, h0]
    have hrec := ih (i + 1) (fun j hj => by
      have := hall (j + 1) (by omega)
      rwa [show i + (j + 1) = i + 1 + j by omega] at this)
    rw [if_neg (by omega), if_neg (by simp), hrec]

theorem waitLoop_first_hit (polls : Nat → PollResult) :
    ∀ k rounds i : Nat, k < rounds →
    (∀ j, j < k → polls (i + j) = PollResult.pending 0 "") →
    (∀ cr pe, polls (i + k) = PollResult.pending cr pe → 0 < cr →
      waitLoop polls i rounds = (WaitOutcome.confirmedTxn cr pe, k + 1)) ∧
    (∀ pe, polls (i + k) = PollResult.pending 0 pe → pe ≠ "" →
      waitLoop polls i rounds = (WaitOutcome.poolFailure pe, k + 1)) ∧
    (polls (i + k) = PollResult.excn →
      waitLoop polls i rounds = (WaitOutcome.swallowed, k + 1)) := by
  intro k
  induction k with
  | zero =>
    intro rounds i hk hbefore
    cases rounds with
    | zero => omega
    | succ m =>
      refine ⟨?_, ?_, ?_⟩
      · intro cr pe hp hcr
        rw [Nat.add_zero] at hp
        simp only [waitLoop, hp]
        rw [if_pos hcr]
      · intro pe hp hpe
        rw [Nat.add_zero] at hp
        simp only [waitLoop, hp]
        rw [if_neg (by omega), if_pos hpe]
      · intro hp
        rw [Nat.add_zero] at hp
        simp only [waitLoop, hp]
  | succ k ih =>
    intro rounds i hk hbefore
    cases rounds with
    | zero => omega
    | succ m =>
      have h0 : polls i = PollResult.pending 0 "" := by
        have := hbefore 0 (Nat.succ_pos k)
        rwa [Nat.add_zero] at this
      have hshift : ∀ j, j < k → polls (i + 1 + j) = PollResult.pending 0 "" := by
        intro j hj
        have := hbefore (j + 1) (by omega)
        rwa [show i + (j + 1) = i + 1 + j by omega] at this
      have hik : i + 1 + k = i + (k + 1) := by omega
      have hrec := ih m (i + 1) (by omega) hshift
      refine ⟨?_, ?_, ?_⟩
      · intro cr pe hp hcr
        simp only [waitLoop, h0]
        rw [if_neg (by omega), if_neg (by simp)]
        rw [hrec.1 cr pe (by rwa [hik]) hcr]
      · intro pe hp hpe
        simp only [waitLoop, h0]
        rw [if_neg (by omega), if_neg (by simp)]
        rw [hrec.2.1 pe (by rwa [hik]) hpe]
      · intro hp
        simp only [waitLoop, h0]
        rw [if_neg (by omega), if_neg (by simp)]
        rw [hrec.2.2 (by rwa [hik])]

end CounterContract

namespace CounterContract

theorem format_state_append_bytes (dec : String → String) (pre : List StateEntry)
    (item : StateEntry) (h1 : item.vtype = 1) :
    format_state dec (pre ++ [item]) =
      (dec item.key,
        if dec item.key = "voted" then FormattedValue.str (dec item.bytes)
        else FormattedValue.str item.bytes) :: format_state dec pre := by
  unfold format_state
  rw [List.foldl_append]
  simp only [List.foldl_cons, List.foldl_nil]
  rw [if_pos h1]
  split_ifs with hv
  · rfl
  · rfl

theorem format_state_append_other (dec : String → String) (pre : List StateEntry)
    (item : StateEntry) (h1 : item.vtype ≠ 1) :
    format_state dec (pre ++ [item]) =
      (dec item.key, FormattedValue.int item.uint) :: format_state dec pre := by
  unfold format_state
  rw [List.foldl_append]
  simp only [List.foldl_cons, List.foldl_nil]
  rw [if_neg h1]

end CounterContract

namespace Helpers

open CounterContract

/-- A result of the helper is an error (a raised exception). -/
def isError {ε α : Type} (e : Except ε α) : Bool :=
  match e with
  | Except.error _ => true
  | Except.ok _ => false

theorem get_app_global_state_loop_error (b64 : String → String) (item : StateEntry)
    (h1 : item.vtype ≠ 1) (h2 : item.vtype ≠ 2) :
    ∀ (state : List StateEntry) (acc : List (String × FormattedValue)),
    item ∈ state → isError (get_app_global_state_loop b64 acc state) = true := by
  intro state
  induction state with
  | nil => intro acc hmem; exact absurd hmem (List.not_mem_nil item)
  | cons hd tl ih =>
    intro acc hmem
    rcases List.mem_cons.mp hmem with heq | hmem2
    · subst heq
      simp only [get_app_global_state_loop]
      rw [if_neg h1, if_neg h2]
      rfl
    · by_cases hh1 : hd.vtype = 1
      · simp only [get_app_global_state_loop]
        rw [if_pos hh1]
        exact ih _ hmem2
      · by_cases hh2 : hd.vtype = 2
        · simp only [get_app_global_state_loop]
          rw [if_neg hh1, if_pos hh2]
          exact ih _ hmem2
        · simp only [get_app_global_state_loop]
          rw [if_neg hh1, if_neg hh2]
          rfl

end Helpers

namespace CounterContract

/-- Claim C1, counterexample: the claim states that after every sequence
of solo Add/Deduct calls on a fresh counter the stored value equals
max(0, number of Adds minus number of Deducts). On the sequence
Deduct then Add the code stores 1 (the Deduct on value 0 is a no-op and
the Add then increments), while the claimed formula gives max(0, 1 - 1)
equal to 0, so the claim fails. -/
theorem C1_counterexample :
    (runOps 1 [Op.deduct, Op.add]).count ≠ specClaimValue [Op.deduct, Op.add] := by
  decide

/-- Claim C1 (amended): after any sequence of fewer than 2^64 solo
Add/Deduct calls applied to a freshly created counter, the stored value
equals the maximum over all suffixes of the sequence of (number of Adds
minus number of Deducts in that suffix), the empty suffix contributing 0.
This quantity is always at least max(0, total Adds minus total Deducts)
and coincides with it whenever no Add follows a Deduct. -/
theorem C1_counter_equals_suffix_max (appId : Int) (ops : List Op)
    (h : appId ≠ 0) (hlen : (ops.length : Int) < UINT64_LIMIT) :
    (runOps appId ops).count = suffMax ops := by
  have h0 : ((0 : Nat) : Int) + ops.length < UINT64_LIMIT := by
    push_cast
    omega
  have hfold := foldl_applyTxn_eq_runPureFrom appId h ops 0 h0
  have hmax := runPureFrom_eq_max ops 0
  have hns := net_le_suffMax ops
  unfold runOps
  have hinit : initialState = (⟨((0 : Nat) : Int)⟩ : CounterState) := rfl
  rw [hinit, hfold]
  show ((runPureFrom 0 ops : Nat) : Int) = suffMax ops
  rw [hmax]
  simp only [Nat.cast_zero, zero_add]
  exact max_eq_right hns

/-- Witness for the amended claim C1 at a concrete sequence. -/
theorem C1_witness :
    (1 : Int) ≠ 0 ∧ (([Op.add, Op.add, Op.deduct].length : Int) < UINT64_LIMIT) ∧
    (runOps 1 [Op.add, Op.add, Op.deduct]).count = suffMax [Op.add, Op.add, Op.deduct] :=
  ⟨by decide, by decide,
    C1_counter_equals_suffix_max 1 [Op.add, Op.add, Op.deduct] (by decide) (by decide)⟩

/-- The poll stream on which every pending_transaction_info call raises. -/
def pollsAllRaise : Nat → PollResult := fun _ => PollResult.excn

/-- Claim C2, code-bug evidence: the except handler in
wait_for_confirmation (src/counter_contract.py lines 69-72, likewise
src/tests/helpers.py lines 91-94) catches any exception raised by
pending_transaction_info and returns None, so the error does not
propagate: with a timeout budget of 5 rounds and a first poll that
raises, the function returns normally (the swallowed outcome, one poll
made) instead of letting the failure terminate the workflow, which also
contradicts the helper docstring promising the pending record or a
raised error. -/
theorem C2_exception_swallowed :
    wait_for_confirmation pollsAllRaise 5 = (WaitOutcome.swallowed, 1) := rfl

end CounterContract

namespace CounterContract

/-- Claim C3, counterexample: the claim states that the state formatter
fails with an unexpected-type condition on any discriminant other than 1
or 2, rather than coercing or silently decoding. format_state in
src/counter_contract.py has no failure path for discriminants: its else
branch treats every discriminant other than 1 as the uint case, so on a
concrete entry with discriminant 3 it returns the silently decoded uint
field instead of failing (the embedding of format_state is total). -/
theorem C3_counterexample :
    format_state (fun s => s) [⟨"Count", 3, "", 7⟩] = [("Count", FormattedValue.int 7)] := rfl

/-- Claim C3 (amended): get_app_global_state in src/tests/helpers.py
fails with the unexpected-state-type exception for every entry whose
discriminant is neither 1 nor 2, while format_state in
src/counter_contract.py silently decodes any such entry via its uint
field. -/
theorem C3_unexpected_type (b64 : String → String) (state : List StateEntry)
    (item : StateEntry) (hmem : item ∈ state)
    (h1 : item.vtype ≠ 1) (h2 : item.vtype ≠ 2) :
    Helpers.isError (Helpers.get_app_global_state b64 state) = true ∧
    ∀ (dec : String → String) (pre : List StateEntry),
      format_state dec (pre ++ [item]) =
        (dec item.key, FormattedValue.int item.uint) :: format_state dec pre := by
  constructor
  · exact Helpers.get_app_global_state_loop_error b64 item h1 h2 state [] hmem
  · intro dec pre
    exact format_state_append_other dec pre item h1

/-- Witness for the amended claim C3 at a concrete entry. -/
theorem C3_witness :
    Helpers.isError (Helpers.get_app_global_state (fun s => s) [⟨"k", 3, "", 7⟩]) = true ∧
    format_state (fun s => s) [⟨"k", 3, "", 7⟩] = [("k", FormattedValue.int 7)] := by
  have h := C3_unexpected_type (fun s => s) [⟨"k", 3, "", 7⟩] ⟨"k", 3, "", 7⟩
    (by simp) (by decide) (by decide)
  exact ⟨h.1, by simpa using h.2 (fun s => s) []⟩

end CounterContract

namespace DonationSmartSig

/-- Claim C4: the donation escrow approves a transaction exactly when the
type is payment, the receiver is the embedded benefactor address and the
group size is 1; consequently a withdrawal to any other receiver is
rejected, and a withdrawal in a group of size greater than 1 is rejected
even with the correct receiver. -/
theorem C4_escrow_iff (benefactor : String) (txn : SigTxn) :
    (donation_escrow benefactor txn = true ↔
      (txn.typeEnum = TxnType.payment ∧ txn.receiver = benefactor ∧ txn.groupSize = 1)) ∧
    (txn.receiver ≠ benefactor → donation_escrow benefactor txn = false) ∧
    (1 < txn.groupSize → donation_escrow benefactor txn = false) := by
  refine ⟨?_, ?_, ?_⟩
  · simp [donation_escrow, and_assoc]
  · intro hne
    simp [donation_escrow, hne]
  · intro hgt
    have hne : txn.groupSize ≠ 1 := by omega
    simp [donation_escrow, hne]

/-- Witness for claim C4: a wrong receiver is rejected, a group of size 2
is rejected despite the right receiver, and the on-spec solo payment to
the benefactor is approved. -/
theorem C4_witness :
    donation_escrow "BENEF" ⟨TxnType.payment, "OTHER", 1⟩ = false ∧
    donation_escrow "BENEF" ⟨TxnType.payment, "BENEF", 2⟩ = false ∧
    donation_escrow "BENEF" ⟨TxnType.payment, "BENEF", 1⟩ = true :=
  ⟨(C4_escrow_iff "BENEF" ⟨TxnType.payment, "OTHER", 1⟩).2.1 (by decide),
   (C4_escrow_iff "BENEF" ⟨TxnType.payment, "BENEF", 2⟩).2.2 (by decide),
   (C4_escrow_iff "BENEF" ⟨TxnType.payment, "BENEF", 1⟩).1.mpr (by decide)⟩

end DonationSmartSig

namespace CounterContract

/-- Claim C5: wait_for_confirmation polls at most maxRounds times; when
the polls up to iteration k report an unconfirmed record with no pool
error and poll k reports confirmed-round greater than 0, it returns the
pending record after exactly k + 1 polls; when poll k instead reports a
nonempty pool error (unconfirmed), it raises the pool-error failure after
exactly k + 1 polls; and when every poll in the budget reports an
unconfirmed record with no pool error, it raises the distinct timeout
failure after exhausting the budget, never a silent success. -/
theorem C5_wait_for_confirmation_spec (polls : Nat → PollResult) (maxRounds : Nat) :
    ((wait_for_confirmation polls maxRounds).2 ≤ maxRounds) ∧
    (∀ k cr pe, k < maxRounds →
      (∀ j, j < k → polls j = PollResult.pending 0 "") →
      polls k = PollResult.pending cr pe → 0 < cr →
      wait_for_confirmation polls maxRounds = (WaitOutcome.confirmedTxn cr pe, k + 1)) ∧
    (∀ k pe, k < maxRounds →
      (∀ j, j < k → polls j = PollResult.pending 0 "") →
      polls k = PollResult.pending 0 pe → pe ≠ "" →
      wait_for_confirmation polls maxRounds = (WaitOutcome.poolFailure pe, k + 1)) ∧
    ((∀ j, j < maxRounds → polls j = PollResult.pending 0 "") →
      wait_for_confirmation polls maxRounds = (WaitOutcome.timeoutFailure, maxRounds)) := by
  refine ⟨waitLoop_polls_le polls maxRounds 0, ?_, ?_, ?_⟩
  · intro k cr pe hk hbef hp hcr
    exact (waitLoop_first_hit polls k maxRounds 0 hk (by simpa using hbef)).1 cr pe
      (by simpa using hp) hcr
  · intro k pe hk hbef hp hpe
    exact (waitLoop_first_hit polls k maxRounds 0 hk (by simpa using hbef)).2.1 pe
      (by simpa using hp) hpe
  · intro hall
    exact waitLoop_timeout polls maxRounds 0 (by simpa using hall)

/-- Poll stream confirming at the second poll. -/
def pollsConfirmSecond : Nat → PollResult := fun i =>
  if i < 1 then PollResult.pending 0 "" else PollResult.pending 9 ""

/-- Poll stream reporting a pool error at the second poll. -/
def pollsPoolErrSecond : Nat → PollResult := fun i =>
  if i < 1 then PollResult.pending 0 "" else PollResult.pending 0 "overspend"

/-- Poll stream that never confirms. -/
def pollsNever : Nat → PollResult := fun _ => PollResult.pending 0 ""

/-- Witness for claim C5 at concrete poll streams and a budget of 5. -/
theorem C5_witness :
    (wait_for_confirmation pollsNever 5).2 ≤ 5 ∧
    wait_for_confirmation pollsConfirmSecond 5 = (WaitOutcome.confirmedTxn 9 "", 2) ∧
    wait_for_confirmation pollsPoolErrSecond 5 = (WaitOutcome.poolFailure "overspend", 2) ∧
    wait_for_confirmation pollsNever 5 = (WaitOutcome.timeoutFailure, 5) :=
  ⟨(C5_wait_for_confirmation_spec pollsNever 5).1,
   (C5_wait_for_confirmation_spec pollsConfirmSecond 5).2.1 1 9 "" (by decide)
     (fun j hj => by
       have hj0 : j = 0 := by omega
       subst hj0
       rfl)
     (by decide) (by decide),
   (C5_wait_for_confirmation_spec pollsPoolErrSecond 5).2.2.1 1 "overspend" (by decide)
     (fun j hj => by
       have hj0 : j = 0 := by omega
       subst hj0
       rfl)
     (by decide) (by decide),
   (C5_wait_for_confirmation_spec pollsNever 5).2.2.2 (fun j hj => rfl)⟩

/-- Claim C6: a Deduct call on a counter whose stored value is 0 is
approved (the contract returns 1) and leaves the value unchanged at 0. -/
theorem C6_deduct_at_zero (appId : Int) (st : CounterState)
    (h : appId ≠ 0) (hz : st.count = 0) :
    accepts (opTxn appId Op.deduct) st = true ∧
    applyTxn st (opTxn appId Op.deduct) = st := by
  constructor
  · simp [accepts, approval_program, opTxn, handle_noop, Op.toArg, deductBranch, h, hz]
  · exact applyTxn_deduct_np appId st h (by omega)

/-- Witness for claim C6 at application id 1 and the zero counter. -/
theorem C6_witness :
    accepts (opTxn 1 Op.deduct) ⟨0⟩ = true ∧ applyTxn ⟨0⟩ (opTxn 1 Op.deduct) = ⟨0⟩ :=
  C6_deduct_at_zero 1 ⟨0⟩ (by decide) rfl

/-- Claim C7: every state reachable from creation (value 0) by a sequence
of solo Add/Deduct calls carries a non-negative counter, and a Deduct on
the zero counter succeeds (the program returns 1 without erroring) with
the state left unchanged rather than going negative. -/
theorem C7_nonneg_invariant (appId : Int) (ops : List Op) (st : CounterState)
    (h : appId ≠ 0) (hz : st.count = 0) :
    0 ≤ (runOps appId ops).count ∧
    approval_program (opTxn appId Op.deduct) st = some (true, st) := by
  constructor
  · exact runOps_nonneg appId ops
  · simp [approval_program, opTxn, handle_noop, Op.toArg, deductBranch, h, hz]

/-- Witness for claim C7 at application id 1 and a concrete sequence. -/
theorem C7_witness :
    0 ≤ (runOps 1 [Op.deduct, Op.add, Op.deduct, Op.deduct]).count ∧
    approval_program (opTxn 1 Op.deduct) ⟨0⟩ = some (true, ⟨0⟩) :=
  C7_nonneg_invariant 1 [Op.deduct, Op.add, Op.deduct, Op.deduct] ⟨0⟩ (by decide) rfl

end CounterContract

namespace CounterContract

/-- Claim C8: an application call on the deployed counter (application id
nonzero) whose transaction group size differs from 1 is not accepted and
leaves the stored counter unchanged, whatever the on-completion action
and arguments: the Add/Deduct dispatch in handle_noop requires group size
exactly 1 in both Cond guards. -/
theorem C8_group_size_reject (txn : AppCallTxn) (st : CounterState)
    (hid : txn.applicationId ≠ 0) (hgs : txn.groupSize ≠ 1) :
    accepts txn st = false ∧ applyTxn st txn = st := by
  have key : approval_program txn st = none ∨ approval_program txn st = some (false, st) := by
    unfold approval_program
    rw [if_neg hid]
    split_ifs with h2 h3 h4 h5 h6
    · right; rfl
    · right; rfl
    · right; rfl
    · right; rfl
    · left
      unfold handle_noop
      cases hhead : txn.appArgs.head? with
      | none => rfl
      | some arg0 =>
        show (if txn.groupSize = 1 ∧ arg0 = "Add" then addBranch st
          else if txn.groupSize = 1 ∧ arg0 = "Deduct" then deductBranch st
          else none) = none
        rw [if_neg (fun hc => hgs hc.1), if_neg (fun hc => hgs hc.1)]
    · left; rfl
  rcases key with hk | hk
  · exact ⟨by simp [accepts, hk], by simp [applyTxn, hk]⟩
  · exact ⟨by simp [accepts, hk], by simp [applyTxn, hk]⟩

/-- Witness for claim C8: an Add call in a group of size 2 against
application 1 is not accepted and leaves the zero counter unchanged. -/
theorem C8_witness :
    accepts ⟨1, OnComplete.noOp, 2, ["Add"]⟩ ⟨0⟩ = false ∧
    applyTxn ⟨0⟩ ⟨1, OnComplete.noOp, 2, ["Add"]⟩ = ⟨0⟩ :=
  C8_group_size_reject ⟨1, OnComplete.noOp, 2, ["Add"]⟩ ⟨0⟩ (by decide) (by decide)

/-- Claim C9: a call on the deployed counter (application id nonzero)
whose on-completion action is opt-in, close-out, update-application or
delete-application evaluates to 0 (reject) and leaves the state
unchanged. -/
theorem C9_oncompletion_reject (txn : AppCallTxn) (st : CounterState)
    (hid : txn.applicationId ≠ 0)
    (hoc : txn.onCompletion = OnComplete.optIn ∨ txn.onCompletion = OnComplete.closeOut ∨
      txn.onCompletion = OnComplete.updateApplication ∨
      txn.onCompletion = OnComplete.deleteApplication) :
    approval_program txn st = some (false, st) ∧
    accepts txn st = false ∧ applyTxn st txn = st := by
  have happ : approval_program txn st = some (false, st) := by
    unfold approval_program
    rw [if_neg hid]
    rcases hoc with h | h | h | h
    · rw [if_pos h]
    · rw [if_neg (by simp [h]), if_pos h]
    · rw [if_neg (by simp [h]), if_neg (by simp [h]), if_pos h]
    · rw [if_neg (by simp [h]), if_neg (by simp [h]), if_neg (by simp [h]), if_pos h]
  exact ⟨happ, by simp [accepts, happ], by simp [applyTxn, happ]⟩

/-- Witness for claim C9: an opt-in call against application 1 is
rejected with the zero counter unchanged. -/
theorem C9_witness :
    approval_program ⟨1, OnComplete.optIn, 1, []⟩ ⟨0⟩ = some (false, ⟨0⟩) ∧
    accepts ⟨1, OnComplete.optIn, 1, []⟩ ⟨0⟩ = false ∧
    applyTxn ⟨0⟩ ⟨1, OnComplete.optIn, 1, []⟩ = ⟨0⟩ :=
  C9_oncompletion_reject ⟨1, OnComplete.optIn, 1, []⟩ ⟨0⟩ (by decide) (Or.inl rfl)

/-- Claim C10: in format_state, an entry with discriminant 1 is mapped
(under its decoded key, as the latest write) to its raw base64 bytes
field unchanged, unless the decoded key equals the exact string voted, in
which case the bytes field is additionally run through the base64 and
UTF-8 decoder. -/
theorem C10_bytes_formatting (dec : String → String) (pre : List StateEntry)
    (item : StateEntry) (h1 : item.vtype = 1) :
    List.lookup (dec item.key) (format_state dec (pre ++ [item])) =
      some (if dec item.key = "voted" then FormattedValue.str (dec item.bytes)
            else FormattedValue.str item.bytes) := by
  rw [format_state_append_bytes dec pre item h1]
  simp [List.lookup]

/-- Witness for claim C10: with the identity decoder, a byte entry under
the key voted is decoded while a byte entry under another key keeps its
raw base64 string. -/
theorem C10_witness :
    List.lookup "voted" (format_state (fun s => s) [⟨"voted", 1, "eWVz", 0⟩]) =
      some (FormattedValue.str "eWVz") ∧
    List.lookup "k" (format_state (fun s => s) [⟨"k", 1, "QQ==", 0⟩]) =
      some (FormattedValue.str "QQ==") :=
  ⟨by simpa using C10_bytes_formatting (fun s => s) [] ⟨"voted", 1, "eWVz", 0⟩ rfl,
   by simpa using C10_bytes_formatting (fun s => s) [] ⟨"k", 1, "QQ==", 0⟩ rfl⟩

end CounterContract
